import Mathlib

/-!
Verification development for the firestore-team repository (v9web sample app).

The definitions below are a shallow embedding of the TypeScript sources:
  - `src/v9web/src/common/settings.ts` (SettingValue, Settings, SettingsStorage)
  - `src/v9web/src/common/util.ts` (hostNameFromHost, isPlaceholderValue)
  - `src/v9web/src/common/firestore_helper.ts` (FirebaseObjectCacheKey,
    FirebaseObjectCache, getOrCreateFirestore, setHasher, setBase64Encode)
  - `src/v9web/src/index_node.ts` (setupFirestore)
  - `src/v9web/src/node/index.ts` (the installed hasher and base64 primitives)
TypeScript machine types are modelled with Nat and explicit mod 2 ^ 32 where
overflow matters; fallible code returns Except; mutable objects become
explicit state passing.
-/

namespace FirestoreTeam

instance {ε α : Type} [DecidableEq ε] [DecidableEq α] : DecidableEq (Except ε α) :=
  fun x y =>
    match x, y with
    | .ok a, .ok b =>
      if h : a = b then .isTrue (by rw [h]) else .isFalse (fun hh => h (Except.ok.inj hh))
    | .error a, .error b =>
      if h : a = b then .isTrue (by rw [h]) else .isFalse (fun hh => h (Except.error.inj hh))
    | .ok _, .error _ => .isFalse (fun hh => Except.noConfusion hh)
    | .error _, .ok _ => .isFalse (fun hh => Except.noConfusion hh)

/-! ## Settings storage (settings.ts, interface SettingsStorage)

A pluggable key-to-string mapping with load, save and clear operations.
Modelled as a function from keys to optional string values, matching the
string-or-null contract of the TypeScript interface. -/

def SettingsStorage : Type := String → Option String

def SettingsStorage.load (storage : SettingsStorage) (key : String) : Option String :=
  storage key

def SettingsStorage.save (storage : SettingsStorage) (key value : String) : SettingsStorage :=
  fun k => if k = key then some value else storage k

def SettingsStorage.clear (storage : SettingsStorage) (key : String) : SettingsStorage :=
  fun k => if k = key then none else storage k

/-- Storage of an empty backend: every key maps to null. -/
def SettingsStorage.empty : SettingsStorage := fun _ => none

/-! ## SettingValue (settings.ts, class SettingValue<T extends string | boolean>)

The TypeScript class is generic over T extending string | boolean.  The
generic is reified as the index `SettingTy`; `carrier` gives the Lean type
of the setting value for each index. -/

inductive SettingTy where
  | str
  | bool
deriving DecidableEq

@[reducible] def SettingTy.carrier : SettingTy → Type
  | .str => String
  | .bool => Bool

instance : (ty : SettingTy) → DecidableEq ty.carrier
  | .str => inferInstanceAs (DecidableEq String)
  | .bool => inferInstanceAs (DecidableEq Bool)

/-- Models the field type `T | typeof RESET_TOKEN | null` of `_setValue`. -/
inductive SetSlot (α : Type) where
  | null
  | resetToken
  | val (v : α)
deriving DecidableEq

/-- Models the argument type `T | typeof RESET_TOKEN` of `_saveValue`. -/
inductive SaveArg (α : Type) where
  | resetToken
  | val (v : α)
deriving DecidableEq

structure SettingValue (ty : SettingTy) where
  key : String
  defaultValue : ty.carrier
  setValueField : SetSlot ty.carrier
  loadedValueField : Option ty.carrier
deriving DecidableEq

/-- Corresponds to the constructor: both private fields start at null. -/
def SettingValue.new (ty : SettingTy) (key : String) (defaultValue : ty.carrier) :
    SettingValue ty :=
  { key := key, defaultValue := defaultValue,
    setValueField := .null, loadedValueField := none }

/-- Getter `value`: resolves RESET_TOKEN to the default, then a staged set
value, then a loaded value, then the default, in the order of the source. -/
def SettingValue.value {ty : SettingTy} (sv : SettingValue ty) : ty.carrier :=
  match sv.setValueField with
  | .resetToken => sv.defaultValue
  | .val v => v
  | .null =>
    match sv.loadedValueField with
    | some l => l
    | none => sv.defaultValue

/-- Getter `isDirty`: whether `_setValue !== null`. -/
def SettingValue.isDirty {ty : SettingTy} (sv : SettingValue ty) : Bool :=
  match sv.setValueField with
  | .null => false
  | _ => true

/-- Getter `isDefault`: whether both private fields are null. -/
def SettingValue.isDefault {ty : SettingTy} (sv : SettingValue ty) : Bool :=
  match sv.setValueField, sv.loadedValueField with
  | .null, none => true
  | _, _ => false

/-- Method `setValue(newValue)`. -/
def SettingValue.setValue {ty : SettingTy} (sv : SettingValue ty) (newValue : ty.carrier) :
    SettingValue ty :=
  { sv with setValueField := .val newValue }

/-- Method `resetValue()`: stages the RESET_TOKEN. -/
def SettingValue.resetValue {ty : SettingTy} (sv : SettingValue ty) : SettingValue ty :=
  { sv with setValueField := .resetToken }

/-- The typeof-directed branches of `_loadValue()` applied to a non-null
raw string: a string setting accepts the raw string verbatim; a boolean
setting accepts only "true" and "false" and yields null otherwise.  The
final `throw` branch of the source is unreachable because T extends
string | boolean, which the index enforces. -/
def SettingTy.parse : (ty : SettingTy) → String → Option ty.carrier
  | .str, stringValue => some stringValue
  | .bool, stringValue =>
    if stringValue = "true" then some true
    else if stringValue = "false" then some false
    else none

/-- Private method `_loadValue()`: reads the raw string from storage and
parses it according to the runtime type of the default value. -/
def SettingValue.loadValueFromStorage {ty : SettingTy} (sv : SettingValue ty)
    (storage : SettingsStorage) : Option ty.carrier :=
  match storage.load sv.key with
  | none => none
  | some stringValue => ty.parse stringValue

/-- Method `load()`: overwrites `_loadedValue` only when `_loadValue()`
returned a non-null value. -/
def SettingValue.load {ty : SettingTy} (sv : SettingValue ty)
    (storage : SettingsStorage) : SettingValue ty :=
  match sv.loadValueFromStorage storage with
  | some loadedValue => { sv with loadedValueField := some loadedValue }
  | none => sv

/-- Serialization used by `_saveValue`: a string value verbatim, a boolean
as "true" / "false"; the final `throw` branch of the source is unreachable
for T extending string | boolean. -/
def SettingTy.serialize : (ty : SettingTy) → ty.carrier → String
  | .str, value => value
  | .bool, value => if (value : Bool) then "true" else "false"

/-- Private method `_saveValue(value)`: clears the storage entry for the
RESET_TOKEN, otherwise writes the serialized value. -/
def SettingValue.saveValueToStorage {ty : SettingTy} (sv : SettingValue ty)
    (storage : SettingsStorage) : SaveArg ty.carrier → SettingsStorage
  | .resetToken => storage.clear sv.key
  | .val value => storage.save sv.key (ty.serialize value)

/-- Method `save()`: a no-op when nothing is staged; otherwise clears the
staged slot, updates `_loadedValue` (null for a reset, the new value
otherwise) and writes through `_saveValue`.  Returns the new setting state
and the new storage state. -/
def SettingValue.save {ty : SettingTy} (sv : SettingValue ty)
    (storage : SettingsStorage) : SettingValue ty × SettingsStorage :=
  match sv.setValueField with
  | .null => (sv, storage)
  | .resetToken =>
    ({ sv with setValueField := .null, loadedValueField := none },
      sv.saveValueToStorage storage .resetToken)
  | .val newValue =>
    ({ sv with setValueField := .null, loadedValueField := some newValue },
      sv.saveValueToStorage storage (.val newValue))

/-! ## Settings collection (settings.ts, class Settings)

The compile-time configuration constants come from firebase_config.ts.
The TypeScript union FirestoreHost is a union of four string literals and
is erased at runtime, so the host setting stores plain strings. -/

def PROJECT_ID : String := "REPLACE_WITH_YOUR_PROJECT_ID"

def API_KEY : String := "REPLACE_WITH_YOUR_API_KEY"

def HOST : String := "prod"

structure Settings where
  debugLogEnabled : SettingValue .bool
  host : SettingValue .str
  projectId : SettingValue .str
  apiKey : SettingValue .str
deriving DecidableEq

/-- Corresponds to the private constructor of `Settings`: the four members
with their display names elided, their storage keys and their defaults. -/
def Settings.new : Settings :=
  { debugLogEnabled := SettingValue.new .bool "debugLogEnabled" false
    host := SettingValue.new .str "host" HOST
    projectId := SettingValue.new .str "projectId" PROJECT_ID
    apiKey := SettingValue.new .str "apiKey" API_KEY }

/-- Identifies a member of `Settings.all`, in the order of the source:
debugLogEnabled, host, projectId, apiKey. -/
inductive SettingId where
  | debugLogEnabled
  | host
  | projectId
  | apiKey
deriving DecidableEq

/-- Getter `all`: the fixed iteration order of `saveAll` and `loadAll`. -/
def Settings.allIds : List SettingId :=
  [.debugLogEnabled, .host, .projectId, .apiKey]

/-- World state threaded through `Settings.saveAll`: the four settings, the
shared storage backend, and the module-level effects of
`FirestoreDebugLogEnabledSettingValue.apply` (the global
`debugLogEnabledSettingApplied` flag and the log level last passed to the
external `setLogLevel`, none when it was never called). -/
structure World where
  settings : Settings
  storage : SettingsStorage
  debugLogEnabledSettingApplied : Bool
  logLevel : Option String

/-- Method `FirestoreDebugLogEnabledSettingValue.apply()`: always sets the
global applied flag; when the setting is not at its default it passes
"debug" or "info" to `setLogLevel` depending on the current value. -/
def World.applyDebugLogEnabled (w : World) : World :=
  if w.settings.debugLogEnabled.isDefault then
    { w with debugLogEnabledSettingApplied := true }
  else
    { w with
      debugLogEnabledSettingApplied := true
      logLevel := some (if w.settings.debugLogEnabled.value then "debug" else "info") }

/-- Whether the setting named by `id` is dirty in world `w`. -/
def World.isDirtyAt (w : World) : SettingId → Bool
  | .debugLogEnabled => w.settings.debugLogEnabled.isDirty
  | .host => w.settings.host.isDirty
  | .projectId => w.settings.projectId.isDirty
  | .apiKey => w.settings.apiKey.isDirty

/-- Body of the `saveAll` loop for one setting: `setting.save()` followed by
`setting.apply?.()`.  Only the debug-logging setting defines `apply`. -/
def World.saveAndApply (w : World) : SettingId → World
  | .debugLogEnabled =>
    World.applyDebugLogEnabled
      { w with
        settings :=
          { w.settings with debugLogEnabled := (w.settings.debugLogEnabled.save w.storage).1 }
        storage := (w.settings.debugLogEnabled.save w.storage).2 }
  | .host =>
    { w with
      settings := { w.settings with host := (w.settings.host.save w.storage).1 }
      storage := (w.settings.host.save w.storage).2 }
  | .projectId =>
    { w with
      settings := { w.settings with projectId := (w.settings.projectId.save w.storage).1 }
      storage := (w.settings.projectId.save w.storage).2 }
  | .apiKey =>
    { w with
      settings := { w.settings with apiKey := (w.settings.apiKey.save w.storage).1 }
      storage := (w.settings.apiKey.save w.storage).2 }

/-- Method `Settings.saveAll()`: iterates the fixed list of four settings,
and for each dirty one calls `save()`, then the optional `apply()` hook,
and appends it to the returned list. -/
def World.saveAll (w : World) : World × List SettingId :=
  Settings.allIds.foldl
    (fun acc id =>
      if acc.1.isDirtyAt id then (acc.1.saveAndApply id, acc.2 ++ [id])
      else (acc.1, acc.2))
    (w, [])

/-! ## Operation sequences on a single setting (for the layering claim)

A sequence of `load()` and `setValue(v)` calls against a fixed storage
backend, applied in order to a setting. -/

inductive SettingOp (ty : SettingTy) where
  | load
  | setValue (v : ty.carrier)

def SettingValue.runOps {ty : SettingTy} (sv : SettingValue ty)
    (storage : SettingsStorage) : List (SettingOp ty) → SettingValue ty
  | [] => sv
  | op :: ops =>
    (match op with
     | .load => sv.load storage
     | .setValue v => sv.setValue v).runOps storage ops

/-- The argument of the last `setValue` call in the sequence, if any. -/
def lastSetValue {ty : SettingTy} : List (SettingOp ty) → Option ty.carrier
  | [] => none
  | op :: ops =>
    match lastSetValue ops with
    | some v => some v
    | none =>
      match op with
      | .setValue v => some v
      | .load => none

/-- Whether the sequence contains at least one `load()` call. -/
def hasLoad {ty : SettingTy} : List (SettingOp ty) → Bool
  | [] => false
  | .load :: _ => true
  | .setValue _ :: ops => hasLoad ops

/-! ## Utility functions (util.ts) and error conditions

Errors thrown by the repository code are collected in one inductive; the
constructor names follow the TypeScript error classes. -/

inductive AppError where
  | unknownFirestoreHost (host : String)
  | placeholderProjectIdNotAllowed (message : String)
  | hasherNotInitialized
  | base64EncodeNotInitialized
  | duplicateCacheEntry (keyString : String)
deriving DecidableEq

/-- Models `String.prototype.startsWith` on the character lists. -/
def listStartsWith : List Char → List Char → Bool
  | [], _ => true
  | _ :: _, [] => false
  | p :: ps, c :: cs => p = c && listStartsWith ps cs

/-- Function `isPlaceholderValue`: whether the value starts with the
committed placeholder marker. -/
def isPlaceholderValue (value : String) : Bool :=
  listStartsWith "REPLACE_WITH_YOUR_".data value.data

/-- Function `hostNameFromHost`: the switch over the four known host IDs;
any other string reaches the `throw new UnknownFirestoreHostError(host)`. -/
def hostNameFromHost (host : String) : Except AppError String :=
  if host = "prod" then .ok "firestore.googleapis.com"
  else if host = "emulator" then .ok "127.0.0.1"
  else if host = "nightly" then .ok "test-firestore.sandbox.googleapis.com"
  else if host = "qa" then .ok "staging-firestore.sandbox.googleapis.com"
  else .error (.unknownFirestoreHost host)

/-- Whether the string is one of the four members of the FirestoreHost
union type. -/
def isKnownHost (host : String) : Bool :=
  host = "prod" || host = "emulator" || host = "nightly" || host = "qa"

/-! ## Cache key (firestore_helper.ts, class FirebaseObjectCacheKey)

The instanceId field has TypeScript type `number | null`; every call site
passes a small non-negative integer, modelled as Nat. -/

structure FirebaseObjectCacheKey where
  host : String
  projectId : String
  apiKey : String
  instanceId : Option Nat
deriving DecidableEq

/-- Getter `canonicalStringWithoutInstanceId`. -/
def FirebaseObjectCacheKey.canonicalStringWithoutInstanceId
    (key : FirebaseObjectCacheKey) : String :=
  key.host ++ "%" ++ key.projectId ++ "%" ++ key.apiKey

/-- Getter `canonicalString`: appends a percent-separated instanceId when
one is present. -/
def FirebaseObjectCacheKey.canonicalString (key : FirebaseObjectCacheKey) : String :=
  key.canonicalStringWithoutInstanceId ++
    (match key.instanceId with
     | none => ""
     | some i => "%" ++ toString i)

/-! ## Object cache (firestore_helper.ts, class FirebaseObjectCache<T>)

The private `Map<string, T>` is modelled as an association list in
insertion order; `Map.get` is the first (and only) binding of a key. -/

def mapGet {T : Type} : List (String × T) → String → Option T
  | [], _ => none
  | (k, v) :: rest, s => if k = s then some v else mapGet rest s

structure FirebaseObjectCache (T : Type) where
  cachedObjectsByKey : List (String × T)
deriving DecidableEq

def FirebaseObjectCache.empty (T : Type) : FirebaseObjectCache T := ⟨[]⟩

/-- Method `get(key)`: the `?? null` of the source becomes the Option
returned by the map lookup. -/
def FirebaseObjectCache.get {T : Type} (cache : FirebaseObjectCache T)
    (key : FirebaseObjectCacheKey) : Option T :=
  mapGet cache.cachedObjectsByKey key.canonicalString

/-- Method `set(key, value)`: throws when an entry already exists for the
canonical key string, otherwise appends the new binding (JavaScript Map
insertion order). -/
def FirebaseObjectCache.set {T : Type} (cache : FirebaseObjectCache T)
    (key : FirebaseObjectCacheKey) (value : T) :
    Except AppError (FirebaseObjectCache T) :=
  let keyString := key.canonicalString
  if (mapGet cache.cachedObjectsByKey keyString).isSome then
    .error (.duplicateCacheEntry keyString)
  else
    .ok ⟨cache.cachedObjectsByKey ++ [(keyString, value)]⟩

/-- Applies a list of attempted `set` calls in order; a call that throws
leaves the cache unchanged (the exception propagates to the caller without
mutating the map). -/
def FirebaseObjectCache.applySets {T : Type} (cache : FirebaseObjectCache T) :
    List (FirebaseObjectCacheKey × T) → FirebaseObjectCache T
  | [] => cache
  | (key, value) :: rest =>
    (match cache.set key value with
     | .ok cache1 => cache1
     | .error _ => cache).applySets rest

/-! ## Injected hash and base64 primitives

firestore_helper.ts receives a streaming hasher and a base64 encoder via
`setHasher` / `setBase64Encode`.  The browser shell installs the Closure
Md5 and `btoa`; the Node shell installs `createHash('md5')` and a
Buffer-based base64 encoder (src/v9web/src/node/index.ts).  The source
always calls the hasher as reset-update-digest, which is the pure digest
function of the byte sequence, so the installed hasher is modelled as a
function from byte lists to byte lists.  Below are reference
implementations of the two installed algorithms: MD5 (RFC 1321) over byte
lists with explicit mod 2 ^ 32 arithmetic, and standard base64. -/

/-- UTF-8 encoding of one character, modelling `TextEncoder.encode`. -/
def utf8EncodeChar (c : Char) : List Nat :=
  let n := c.toNat
  if n < 128 then [n]
  else if n < 2048 then [192 + n / 64, 128 + n % 64]
  else if n < 65536 then [224 + n / 4096, 128 + (n / 64) % 64, 128 + n % 64]
  else [240 + n / 262144, 128 + (n / 4096) % 64, 128 + (n / 64) % 64, 128 + n % 64]

/-- UTF-8 encoding of a string as a byte list (`new TextEncoder().encode`). -/
def utf8Encode (s : String) : List Nat :=
  s.data.flatMap utf8EncodeChar

/-- The 64 MD5 sine-derived round constants. -/
def md5K : List Nat :=
  [0xd76aa478, 0xe8c7b756, 0x242070db, 0xc1bdceee,
   0xf57c0faf, 0x4787c62a, 0xa8304613, 0xfd469501,
   0x698098d8, 0x8b44f7af, 0xffff5bb1, 0x895cd7be,
   0x6b901122, 0xfd987193, 0xa679438e, 0x49b40821,
   0xf61e2562, 0xc040b340, 0x265e5a51, 0xe9b6c7aa,
   0xd62f105d, 0x02441453, 0xd8a1e681, 0xe7d3fbc8,
   0x21e1cde6, 0xc33707d6, 0xf4d50d87, 0x455a14ed,
   0xa9e3e905, 0xfcefa3f8, 0x676f02d9, 0x8d2a4c8a,
   0xfffa3942, 0x8771f681, 0x6d9d6122, 0xfde5380c,
   0xa4beea44, 0x4bdecfa9, 0xf6bb4b60, 0xbebfbc70,
   0x289b7ec6, 0xeaa127fa, 0xd4ef3085, 0x04881d05,
   0xd9d4d039, 0xe6db99e5, 0x1fa27cf8, 0xc4ac5665,
   0xf4292244, 0x432aff97, 0xab9423a7, 0xfc93a039,
   0x655b59c3, 0x8f0ccc92, 0xffeff47d, 0x85845dd1,
   0x6fa87e4f, 0xfe2ce6e0, 0xa3014314, 0x4e0811a1,
   0xf7537e82, 0xbd3af235, 0x2ad7d2bb, 0xeb86d391]

/-- The 64 MD5 per-round left-rotation amounts. -/
def md5S : List Nat :=
  [7, 12, 17, 22, 7, 12, 17, 22, 7, 12, 17, 22, 7, 12, 17, 22,
   5, 9, 14, 20, 5, 9, 14, 20, 5, 9, 14, 20, 5, 9, 14, 20,
   4, 11, 16, 23, 4, 11, 16, 23, 4, 11, 16, 23, 4, 11, 16, 23,
   6, 10, 15, 21, 6, 10, 15, 21, 6, 10, 15, 21, 6, 10, 15, 21]

def rotl32 (x n : Nat) : Nat :=
  ((x <<< n) ||| (x >>> (32 - n))) % 4294967296

def not32 (x : Nat) : Nat :=
  x ^^^ 4294967295

/-- Little-endian byte decomposition of a value into `k` bytes. -/
def leBytes : Nat → Nat → List Nat
  | 0, _ => []
  | k + 1, v => (v % 256) :: leBytes k (v / 256)

/-- Little-endian 32-bit words of a 64-byte chunk. -/
def chunkWords : List Nat → List Nat
  | b0 :: b1 :: b2 :: b3 :: rest =>
    (b0 + 256 * b1 + 65536 * b2 + 16777216 * b3) :: chunkWords rest
  | _ => []

/-- MD5 padding: a 0x80 byte, zeros to 56 mod 64, then the bit length as a
64-bit little-endian value. -/
def md5Pad (msg : List Nat) : List Nat :=
  let len := msg.length
  let padZeros := (119 - len % 64) % 64
  msg ++ [128] ++ List.replicate padZeros 0 ++ leBytes 8 ((len * 8) % 18446744073709551616)

/-- One MD5 round applied to the state (a, b, c, d). -/
def md5Step (m : List Nat) (st : Nat × Nat × Nat × Nat) (i : Nat) :
    Nat × Nat × Nat × Nat :=
  let a := st.1
  let b := st.2.1
  let c := st.2.2.1
  let d := st.2.2.2
  let fg : Nat × Nat :=
    if i < 16 then ((b &&& c) ||| (not32 b &&& d), i)
    else if i < 32 then ((d &&& b) ||| (not32 d &&& c), (5 * i + 1) % 16)
    else if i < 48 then (b ^^^ c ^^^ d, (3 * i + 5) % 16)
    else (c ^^^ (b ||| not32 d), (7 * i) % 16)
  let f := (fg.1 + a + md5K.getD i 0 + m.getD fg.2 0) % 4294967296
  (d, (b + rotl32 f (md5S.getD i 0)) % 4294967296, b, c)

/-- Processes the padded message 64 bytes at a time; `fuel` bounds the
number of recursion steps and is instantiated with the byte count. -/
def md5Main : Nat → List Nat → Nat × Nat × Nat × Nat → Nat × Nat × Nat × Nat
  | 0, _, st => st
  | _ + 1, [], st => st
  | fuel + 1, bytes, st =>
    let m := chunkWords (bytes.take 64)
    let r := (List.range 64).foldl (md5Step m) st
    md5Main fuel (bytes.drop 64)
      ((st.1 + r.1) % 4294967296, (st.2.1 + r.2.1) % 4294967296,
       (st.2.2.1 + r.2.2.1) % 4294967296, (st.2.2.2 + r.2.2.2) % 4294967296)

/-- MD5 digest of a byte list: 16 bytes.  This is the installed hasher of
both platform shells (Closure Md5 in the browser, `createHash('md5')` in
Node). -/
def md5Digest (msg : List Nat) : List Nat :=
  let padded := md5Pad msg
  let r := md5Main padded.length padded (0x67452301, 0xefcdab89, 0x98badcfe, 0x10325476)
  leBytes 4 r.1 ++ leBytes 4 r.2.1 ++ leBytes 4 r.2.2.1 ++ leBytes 4 r.2.2.2

/-- The base64 alphabet. -/
def base64Alphabet : List Char :=
  "ABCDEFGHIJKLMNOPQRSTUVWXYZabcdefghijklmnopqrstuvwxyz0123456789+/".data

def base64CharOf (n : Nat) : Char :=
  base64Alphabet.getD n 'A'

/-- Standard base64 encoding of a byte list, with trailing padding. -/
def base64EncodeBytes : List Nat → List Char
  | [] => []
  | [b0] =>
    [base64CharOf (b0 / 4), base64CharOf ((b0 % 4) * 16), '=', '=']
  | [b0, b1] =>
    [base64CharOf (b0 / 4), base64CharOf ((b0 % 4) * 16 + b1 / 16),
     base64CharOf ((b1 % 16) * 4), '=']
  | b0 :: b1 :: b2 :: rest =>
    base64CharOf (b0 / 4) :: base64CharOf ((b0 % 4) * 16 + b1 / 16) ::
    base64CharOf ((b1 % 16) * 4 + b2 / 64) :: base64CharOf (b2 % 64) ::
    base64EncodeBytes rest

/-- Models the installed base64 encoder (`btoa` in the browser,
`Buffer.from(data, 'binary').toString('base64')` in Node): the argument is
a binary string whose character codes are the bytes; both call sites only
pass characters below 256. -/
def base64EncodeOfString (data : String) : String :=
  String.mk (base64EncodeBytes (data.data.map (fun ch => ch.toNat % 256)))

/-- The module-level mutable singletons `hasher` and `base64Encode` of
firestore_helper.ts, each null until installed. -/
structure HelperState where
  hasher : Option (List Nat → List Nat)
  base64Encode : Option (String → String)

/-- The primitives as installed by the platform shells before any test
run: the MD5 hasher and the byte-string base64 encoder. -/
def installedHelperState : HelperState :=
  { hasher := some md5Digest, base64Encode := some base64EncodeOfString }

/-- Getter `appName`: UTF-8 encodes the canonical string without the
instance ID, hashes it, turns the digest bytes into a binary string,
base64-encodes that, strips the padding characters, and appends a dash and
the instance ID when one is present.  Throws when either primitive has not
been installed. -/
def FirebaseObjectCacheKey.appName (hs : HelperState)
    (key : FirebaseObjectCacheKey) : Except AppError String :=
  let encodedValue := utf8Encode key.canonicalStringWithoutInstanceId
  match hs.hasher with
  | none => .error .hasherNotInitialized
  | some hashDigest =>
    match hs.base64Encode with
    | none => .error .base64EncodeNotInitialized
    | some base64Encode =>
      let digest := hashDigest encodedValue
      let digestByteString := String.mk (digest.map (fun n => Char.ofNat n))
      let base64Digest := base64Encode digestByteString
      let base64DigestString := String.mk (base64Digest.data.filter (fun c => c ≠ '='))
      .ok (base64DigestString ++
        (match key.instanceId with
         | none => ""
         | some i => "-" ++ toString i))

/-! ## Client construction, browser path
(firestore_helper.ts, getOrCreateFirestore)

The external SDK objects (FirebaseApp, Firestore) are opaque; the cache
entries keep the data the repository code attaches to them.  The function
returns the produced FirestoreInfo together with the updated module state
(both caches and the debug-log apply effects). -/

structure FirebaseAppCacheEntry extends FirebaseObjectCacheKey
deriving DecidableEq

structure FirestoreCacheEntry extends FirebaseObjectCacheKey where
  ssl : Bool
deriving DecidableEq

structure FirestoreInfo where
  appName : String
  projectId : String
  apiKey : String
  host : String
  hostName : String
  ssl : Bool
deriving DecidableEq

/-- Method `FirestoreCacheEntry.toFirestoreInfo()`: recomputes the
`hostName` and `appName` getters, either of which can throw. -/
def FirestoreCacheEntry.toFirestoreInfo (hs : HelperState)
    (entry : FirestoreCacheEntry) : Except AppError FirestoreInfo := do
  let hostName ← hostNameFromHost entry.host
  let appName ← entry.toFirebaseObjectCacheKey.appName hs
  .ok { appName := appName, projectId := entry.projectId, apiKey := entry.apiKey,
        host := entry.host, hostName := hostName, ssl := entry.ssl }

/-- How the Firestore db object of the browser path came to be: reused from
the instance cache, or constructed (recording the construction mode and
whether `connectFirestoreEmulator` was called). -/
inductive BrowserDbProvenance where
  | cached
  | constructed (viaInitializeFirestoreWithHost : Option String) (emulatorConnected : Bool)
deriving DecidableEq

structure GetOrCreateResult where
  info : FirestoreInfo
  firebaseAppCache : FirebaseObjectCache FirebaseAppCacheEntry
  firestoreInstanceCache : FirebaseObjectCache FirestoreCacheEntry
  debugLogEnabledSettingApplied : Bool
  logLevel : Option String
  dbProvenance : BrowserDbProvenance

/-- Function `getOrCreateFirestore(settings, instanceId)`: reads the four
setting values, validates that a placeholder project ID is only used with
the emulator, applies the debug-log setting once, and then returns a
cached Firestore instance or builds (and caches) an app and an instance.
External SDK constructors are opaque and never fail in this model. -/
def getOrCreateFirestore (hs : HelperState)
    (firebaseAppCache : FirebaseObjectCache FirebaseAppCacheEntry)
    (firestoreInstanceCache : FirebaseObjectCache FirestoreCacheEntry)
    (settings : Settings) (debugLogEnabledSettingApplied : Bool)
    (logLevel : Option String) (instanceId : Option Nat) :
    Except AppError GetOrCreateResult := do
  let host := settings.host.value
  let hostName ← hostNameFromHost host
  let projectId := settings.projectId.value
  let apiKey := settings.apiKey.value
  let cacheKey : FirebaseObjectCacheKey :=
    { host := host, projectId := projectId, apiKey := apiKey, instanceId := instanceId }
  if host ≠ "emulator" ∧ isPlaceholderValue projectId then
    .error (.placeholderProjectIdNotAllowed
      "The Project ID needs to be set in firebase_config.ts, or in the Settings, unless using the Firestore emulator.")
  else do
    let applied :=
      if !debugLogEnabledSettingApplied then
        (true,
         if settings.debugLogEnabled.isDefault then logLevel
         else some (if settings.debugLogEnabled.value then "debug" else "info"))
      else (debugLogEnabledSettingApplied, logLevel)
    match firestoreInstanceCache.get cacheKey with
    | some cachedDb => do
      let info ← cachedDb.toFirestoreInfo hs
      .ok { info := info, firebaseAppCache := firebaseAppCache,
            firestoreInstanceCache := firestoreInstanceCache,
            debugLogEnabledSettingApplied := applied.1, logLevel := applied.2,
            dbProvenance := .cached }
    | none => do
      let cachedApp := firebaseAppCache.get cacheKey
      let _appName ← cacheKey.appName hs
      let firebaseAppCache1 ←
        match cachedApp with
        | some _ => pure firebaseAppCache
        | none => firebaseAppCache.set cacheKey { toFirebaseObjectCacheKey := cacheKey }
      let dbVia : Option String :=
        if host = "prod" ∨ host = "emulator" then none else some hostName
      let connectEmulator := host = "emulator"
      let ssl := host ≠ "emulator"
      let firestoreCacheEntry : FirestoreCacheEntry :=
        { toFirebaseObjectCacheKey := cacheKey, ssl := ssl }
      let firestoreInstanceCache1 ← firestoreInstanceCache.set cacheKey firestoreCacheEntry
      let info ← firestoreCacheEntry.toFirestoreInfo hs
      .ok { info := info, firebaseAppCache := firebaseAppCache1,
            firestoreInstanceCache := firestoreInstanceCache1,
            debugLogEnabledSettingApplied := applied.1, logLevel := applied.2,
            dbProvenance := .constructed dbVia connectEmulator }

/-! ## Client construction, Node path (index_node.ts, setupFirestore) -/

structure ParsedArgs where
  debugLoggingEnabled : Bool
  host : String
  projectId : String
  apiKey : String
deriving DecidableEq

/-- The FirebaseOptions object passed to `initializeApp`; the apiKey field
is present only when it was assigned. -/
structure FirebaseOptions where
  projectId : String
  apiKey : Option String
deriving DecidableEq

inductive DbInitMode where
  | viaGetFirestore
  | viaInitializeFirestore (host : String)
deriving DecidableEq

structure NodeSetupResult where
  firebaseConfig : FirebaseOptions
  logLevelSetToDebug : Bool
  dbInitMode : DbInitMode
  emulatorConnected : Bool
deriving DecidableEq

/-- Function `setupFirestore(options)`: resolves the host name, validates
that a placeholder project ID is only used with the emulator, builds the
FirebaseOptions (omitting a placeholder API key), optionally turns on
debug logging, picks the Firestore construction mode, and connects to the
emulator when selected.  External SDK calls are opaque; the returned
record registers their observable configuration. -/
def setupFirestore (options : ParsedArgs) : Except AppError NodeSetupResult := do
  let hostName ← hostNameFromHost options.host
  if options.host ≠ "emulator" ∧ isPlaceholderValue options.projectId then
    .error (.placeholderProjectIdNotAllowed
      "The Project ID needs to be set in firebase_config.ts or specified on the command-line unless using the Firestore emulator.")
  else
    let firebaseConfig : FirebaseOptions :=
      { projectId := options.projectId,
        apiKey := if !isPlaceholderValue options.apiKey then some options.apiKey else none }
    let dbInitMode :=
      if options.host = "prod" ∨ options.host = "emulator" then DbInitMode.viaGetFirestore
      else DbInitMode.viaInitializeFirestore hostName
    .ok { firebaseConfig := firebaseConfig,
          logLevelSetToDebug := options.debugLoggingEnabled,
          dbInitMode := dbInitMode,
          emulatorConnected := options.host = "emulator" }

/-! ## Cancellation token

Modelled from the spec: the file `cancellation_token.ts` (classes
`CancellationTokenSource` and `CancellationToken`) is not present under
src/, only its importers are.  Per spec section 4.3 and the data model: a
shared boolean flag, initially not cancelled; the source owns `cancel()`,
the only mutation path, which flips the flag to cancelled; the paired
token exposes the read-only poll `isCancelled` and `throwIfCancelled()`,
which signals an operation-cancelled condition when the flag is set and
otherwise is a no-op. -/

structure CancellationState where
  cancelled : Bool
deriving DecidableEq

/-- Modelled from the spec: a freshly created source is not cancelled. -/
def CancellationState.new : CancellationState := { cancelled := false }

/-- Modelled from the spec: `CancellationTokenSource.cancel()` sets the
shared flag. -/
def CancellationState.cancel (s : CancellationState) : CancellationState :=
  { s with cancelled := true }

/-- Modelled from the spec: the token poll `isCancelled` reads the shared
flag. -/
def CancellationState.isCancelled (s : CancellationState) : Bool :=
  s.cancelled

inductive CancellationError where
  | operationCancelled
deriving DecidableEq

/-- Modelled from the spec: `throwIfCancelled()` raises the
operation-cancelled condition when the flag is set and otherwise returns
normally without touching any state. -/
def CancellationState.throwIfCancelled (s : CancellationState) :
    Except CancellationError Unit :=
  if s.cancelled then .error .operationCancelled else .ok ()

/-! ## Lemmas about a single setting -/

theorem loadValueFromStorage_update_loaded {ty : SettingTy} (sv : SettingValue ty)
    (storage : SettingsStorage) (x : Option ty.carrier) :
    ({ sv with loadedValueField := x } : SettingValue ty).loadValueFromStorage storage =
      sv.loadValueFromStorage storage := by
  cases sv
  rfl

theorem loadValueFromStorage_update_slot {ty : SettingTy} (sv : SettingValue ty)
    (storage : SettingsStorage) (x : SetSlot ty.carrier) :
    ({ sv with setValueField := x } : SettingValue ty).loadValueFromStorage storage =
      sv.loadValueFromStorage storage := by
  cases sv
  rfl

/-- State of a setting after a sequence of load and setValue operations:
the staged slot holds the last setValue argument when one exists, and the
loaded field holds the parse result of the fixed storage as soon as a load
was executed and the parse succeeded. -/
theorem runOps_state {ty : SettingTy} (storage : SettingsStorage) :
    ∀ (ops : List (SettingOp ty)) (sv : SettingValue ty),
      (sv.runOps storage ops).key = sv.key ∧
      (sv.runOps storage ops).defaultValue = sv.defaultValue ∧
      (sv.runOps storage ops).setValueField =
        (match lastSetValue ops with
         | some v => .val v
         | none => sv.setValueField) ∧
      (sv.runOps storage ops).loadedValueField =
        (if hasLoad ops && (sv.loadValueFromStorage storage).isSome
         then sv.loadValueFromStorage storage
         else sv.loadedValueField) := by
  intro ops
  induction ops with
  | nil =>
    intro sv
    simp [SettingValue.runOps, lastSetValue, hasLoad]
  | cons op ops ih =>
    intro sv
    cases op with
    | setValue v =>
      obtain ⟨ihk, ihd, ihs, ihl⟩ := ih (sv.setValue v)
      refine ⟨ihk, ihd, ?_, ?_⟩
      · rw [show (sv.runOps storage (.setValue v :: ops)) = ((sv.setValue v).runOps storage ops) from rfl]
        rw [ihs]
        simp only [lastSetValue]
        cases lastSetValue ops <;> rfl
      · rw [show (sv.runOps storage (.setValue v :: ops)) = ((sv.setValue v).runOps storage ops) from rfl]
        rw [ihl]
        simp only [SettingValue.setValue, hasLoad,
          loadValueFromStorage_update_slot]
    | load =>
      have hrun : (sv.runOps storage (.load :: ops)) = ((sv.load storage).runOps storage ops) := rfl
      cases hres : sv.loadValueFromStorage storage with
      | none =>
        have hsv : sv.load storage = sv := by
          simp [SettingValue.load, hres]
        obtain ⟨ihk, ihd, ihs, ihl⟩ := ih sv
        rw [hrun, hsv]
        refine ⟨ihk, ihd, ?_, ?_⟩
        · rw [ihs]
          simp only [lastSetValue]
          cases lastSetValue ops <;> rfl
        · rw [ihl, hres]
          simp [hasLoad]
      | some l =>
        have hsv : sv.load storage = { sv with loadedValueField := some l } := by
          simp [SettingValue.load, hres]
        obtain ⟨ihk, ihd, ihs, ihl⟩ := ih ({ sv with loadedValueField := some l })
        rw [hrun, hsv]
        refine ⟨ihk, ihd, ?_, ?_⟩
        · rw [ihs]
          simp only [lastSetValue]
          cases lastSetValue ops <;> rfl
        · rw [ihl]
          rw [loadValueFromStorage_update_loaded, hres]
          simp only [hasLoad, Option.isSome_some, Bool.and_true]
          cases hasLoad ops <;> simp

/-- C1: for every SettingValue on which resetValue() has not been called,
after any sequence of load() and setValue(v) calls against a fixed storage
backend, the value getter returns the most recently staged pending value
if setValue was called; otherwise the value successfully loaded from
storage by load() if one exists; otherwise the compile-time default. -/
theorem c1_value_layering {ty : SettingTy} (storage : SettingsStorage)
    (key : String) (d : ty.carrier) (ops : List (SettingOp ty)) :
    ((SettingValue.new ty key d).runOps storage ops).value =
      (match lastSetValue ops with
       | some v => v
       | none =>
         if hasLoad ops then
           match (SettingValue.new ty key d).loadValueFromStorage storage with
           | some l => l
           | none => d
         else d) := by
  obtain ⟨hk, hd, hs, hl⟩ := runOps_state storage ops (SettingValue.new ty key d)
  have hdef : ((SettingValue.new ty key d).runOps storage ops).defaultValue = d := hd
  have hslot : ((SettingValue.new ty key d).runOps storage ops).setValueField =
      (match lastSetValue ops with
       | some v => SetSlot.val v
       | none => .null) := hs
  have hlv : ((SettingValue.new ty key d).runOps storage ops).loadedValueField =
      (if hasLoad ops && ((SettingValue.new ty key d).loadValueFromStorage storage).isSome
       then (SettingValue.new ty key d).loadValueFromStorage storage
       else none) := hl
  unfold SettingValue.value
  rw [hslot, hlv]
  cases hlast : lastSetValue ops with
  | some v => rfl
  | none =>
    cases hload : hasLoad ops with
    | false => simp [hdef]
    | true =>
      cases hres : (SettingValue.new ty key d).loadValueFromStorage storage with
      | none => simp [hdef]
      | some l => simp

/-- C4: for every SettingValue with a staged pending value v, calling
save() and then loading a fresh SettingValue with the same key (and any
default) from the resulting storage yields value v: the saved value
becomes the new persisted value. -/
theorem c4_save_load_roundtrip {ty : SettingTy} (sv : SettingValue ty)
    (storage : SettingsStorage) (v : ty.carrier) (d2 : ty.carrier)
    (h : sv.setValueField = .val v) :
    ((SettingValue.new ty sv.key d2).load (sv.save storage).2).value = v := by
  have hsave : (sv.save storage).2 = storage.save sv.key (ty.serialize v) := by
    unfold SettingValue.save
    rw [h]
    rfl
  rw [hsave]
  have hload : (storage.save sv.key (ty.serialize v)).load sv.key = some (ty.serialize v) := by
    unfold SettingsStorage.save SettingsStorage.load
    simp
  have hparse : ty.parse (ty.serialize v) = some v := by
    cases ty with
    | str => rfl
    | bool =>
      cases hv : (v : Bool) <;> simp [SettingTy.parse, SettingTy.serialize]
  have hres : (SettingValue.new ty sv.key d2).loadValueFromStorage
      (storage.save sv.key (ty.serialize v)) = some v := by
    unfold SettingValue.loadValueFromStorage
    rw [show (SettingValue.new ty sv.key d2).key = sv.key from rfl, hload]
    exact hparse
  unfold SettingValue.load
  rw [hres]
  rfl

/-- C4 witness: a concrete string setting with pending value "my-project"
saved to an empty storage and reloaded by a fresh setting. -/
theorem c4_save_load_roundtrip_witness :
    ((SettingValue.new .str "projectId" "other").load
      ((({ key := "projectId", defaultValue := "d", setValueField := .val "my-project",
           loadedValueField := none } : SettingValue .str)).save SettingsStorage.empty).2).value =
      "my-project" :=
  c4_save_load_roundtrip
    ({ key := "projectId", defaultValue := "d", setValueField := .val "my-project",
       loadedValueField := none } : SettingValue .str)
    SettingsStorage.empty "my-project" "other" rfl

/-- C5: for every SettingValue, resetValue() followed by save() removes
the persisted entry from the storage backend (a subsequent storage load of
the key returns null) and leaves the value getter at the compile-time
default. -/
theorem c5_reset_save_clears {ty : SettingTy} (sv : SettingValue ty)
    (storage : SettingsStorage) :
    ((sv.resetValue.save storage).2.load sv.key = none) ∧
    ((sv.resetValue.save storage).1.value = sv.defaultValue) := by
  have hsave : sv.resetValue.save storage =
      ({ sv with setValueField := .null, loadedValueField := none },
        storage.clear sv.key) := by
    unfold SettingValue.resetValue SettingValue.save SettingValue.saveValueToStorage
    rfl
  rw [hsave]
  constructor
  · unfold SettingsStorage.clear SettingsStorage.load
    simp
  · rfl

/-- C9: a boolean-typed SettingValue whose storage entry is neither "true"
nor "false" is silently ignored by load(): the state is unchanged (in
particular the persisted layer stays unset), and on a fresh setting the
value getter returns the compile-time default with isDefault still true.
No error is raised: load is total in the model, because the only throw in
the source is the unreachable typeof branch. -/
theorem c9_bool_garbage_silently_ignored (storage : SettingsStorage)
    (key : String) (d : Bool) (s : String)
    (h1 : storage.load key = some s) (h2 : s ≠ "true") (h3 : s ≠ "false") :
    (∀ sv : SettingValue .bool, sv.key = key → sv.load storage = sv) ∧
    ((SettingValue.new .bool key d).load storage).value = d ∧
    ((SettingValue.new .bool key d).load storage).isDefault = true := by
  have hparse : SettingTy.parse .bool s = none := by
    simp [SettingTy.parse, h2, h3]
  have hnone : ∀ sv : SettingValue .bool, sv.key = key →
      sv.loadValueFromStorage storage = none := by
    intro sv hkey
    unfold SettingValue.loadValueFromStorage
    rw [hkey, h1]
    exact hparse
  have hfix : ∀ sv : SettingValue .bool, sv.key = key → sv.load storage = sv := by
    intro sv hkey
    unfold SettingValue.load
    rw [hnone sv hkey]
  refine ⟨hfix, ?_, ?_⟩ <;> rw [hfix (SettingValue.new .bool key d) rfl] <;> rfl

/-- C9 witness: storage holding the raw string "maybe" for the key of a
boolean setting with default false. -/
theorem c9_bool_garbage_silently_ignored_witness :
    ((SettingValue.new .bool "debugLogEnabled" false).load
      (SettingsStorage.empty.save "debugLogEnabled" "maybe")).value = false :=
  (c9_bool_garbage_silently_ignored
    (SettingsStorage.empty.save "debugLogEnabled" "maybe")
    "debugLogEnabled" false "maybe" rfl (by decide) (by decide)).2.1

/-- C10: after resetValue() and before save(), the value getter returns
the compile-time default even when a value was previously loaded from
storage (the staged reset shadows the persisted layer), and isDirty is
true throughout that window. -/
theorem c10_reset_window {ty : SettingTy} (sv : SettingValue ty) :
    sv.resetValue.value = sv.defaultValue ∧ sv.resetValue.isDirty = true := by
  constructor <;> rfl

/-! ## Lemmas about the object cache -/

theorem mapGet_append {T : Type} (l : List (String × T)) (k : String) (v : T) (s : String) :
    mapGet (l ++ [(k, v)]) s =
      (match mapGet l s with
       | some w => some w
       | none => if k = s then some v else none) := by
  induction l with
  | nil => rfl
  | cons p rest ih =>
    obtain ⟨pk, pv⟩ := p
    by_cases h : pk = s
    · simp [mapGet, h]
    · simp only [List.cons_append, mapGet, if_neg h]
      exact ih

/-- A binding present in the cache survives any further sequence of
attempted set calls: set never overwrites and a failed set mutates
nothing. -/
theorem applySets_keeps {T : Type} (s : String) (v : T) :
    ∀ (ops : List (FirebaseObjectCacheKey × T)) (c : FirebaseObjectCache T),
      mapGet c.cachedObjectsByKey s = some v →
      mapGet (c.applySets ops).cachedObjectsByKey s = some v := by
  intro ops
  induction ops with
  | nil => intro c h; exact h
  | cons p rest ih =>
    intro c h
    obtain ⟨pk, pv⟩ := p
    show mapGet ((match c.set pk pv with
      | .ok c1 => c1
      | .error _ => c).applySets rest).cachedObjectsByKey s = some v
    cases hset : c.set pk pv with
    | error e => exact ih c h
    | ok c1 =>
      unfold FirebaseObjectCache.set at hset
      by_cases hdup : (mapGet c.cachedObjectsByKey pk.canonicalString).isSome
      · rw [if_pos hdup] at hset
        exact absurd hset (by simp)
      · rw [if_neg hdup] at hset
        have hc1 : c1 = ⟨c.cachedObjectsByKey ++ [(pk.canonicalString, pv)]⟩ :=
          (Except.ok.inj hset).symm
        apply ih
        rw [hc1]
        show mapGet (c.cachedObjectsByKey ++ [(pk.canonicalString, pv)]) s = some v
        rw [mapGet_append, h]

/-- A canonical key string never inserted stays absent through any
sequence of attempted set calls. -/
theorem applySets_absent {T : Type} (s : String) :
    ∀ (ops : List (FirebaseObjectCacheKey × T)) (c : FirebaseObjectCache T),
      mapGet c.cachedObjectsByKey s = none →
      (∀ p ∈ ops, (p : FirebaseObjectCacheKey × T).1.canonicalString ≠ s) →
      mapGet (c.applySets ops).cachedObjectsByKey s = none := by
  intro ops
  induction ops with
  | nil => intro c h _; exact h
  | cons p rest ih =>
    intro c h hne
    obtain ⟨pk, pv⟩ := p
    have hpk : pk.canonicalString ≠ s := hne (pk, pv) (List.mem_cons_self _ _)
    have hrest : ∀ q ∈ rest, (q : FirebaseObjectCacheKey × T).1.canonicalString ≠ s :=
      fun q hq => hne q (List.mem_cons_of_mem _ hq)
    show mapGet ((match c.set pk pv with
      | .ok c1 => c1
      | .error _ => c).applySets rest).cachedObjectsByKey s = none
    cases hset : c.set pk pv with
    | error e => exact ih c h hrest
    | ok c1 =>
      unfold FirebaseObjectCache.set at hset
      by_cases hdup : (mapGet c.cachedObjectsByKey pk.canonicalString).isSome
      · rw [if_pos hdup] at hset
        exact absurd hset (by simp)
      · rw [if_neg hdup] at hset
        have hc1 : c1 = ⟨c.cachedObjectsByKey ++ [(pk.canonicalString, pv)]⟩ :=
          (Except.ok.inj hset).symm
        apply ih _ _ hrest
        rw [hc1]
        show mapGet (c.cachedObjectsByKey ++ [(pk.canonicalString, pv)]) s = none
        rw [mapGet_append, h, if_neg hpk]

/-- C2: after a successful set(k, v), any later set with a key of the same
canonical string fails with the duplicate-key error and the original entry
is still returned by get (never silently replaced); and get on a key whose
canonical string was never inserted returns a miss (and is total, hence
never throws). -/
theorem c2_cache_semantics {T : Type} (c c1 : FirebaseObjectCache T)
    (k : FirebaseObjectCacheKey) (v : T)
    (ops ops2 : List (FirebaseObjectCacheKey × T))
    (k2 : FirebaseObjectCacheKey) (v2 : T)
    (hset : c.set k v = .ok c1)
    (hcanon : k2.canonicalString = k.canonicalString)
    (hnever : ∀ p ∈ ops2, (p : FirebaseObjectCacheKey × T).1.canonicalString ≠ k2.canonicalString) :
    ((c1.applySets ops).set k2 v2 = .error (.duplicateCacheEntry k2.canonicalString)) ∧
    ((c1.applySets ops).get k2 = some v) ∧
    (((FirebaseObjectCache.empty T).applySets ops2).get k2 = none) := by
  have hc1mem : mapGet c1.cachedObjectsByKey k2.canonicalString = some v := by
    unfold FirebaseObjectCache.set at hset
    by_cases hdup : (mapGet c.cachedObjectsByKey k.canonicalString).isSome
    · rw [if_pos hdup] at hset
      exact absurd hset (by simp)
    · rw [if_neg hdup] at hset
      have hc1 : c1 = ⟨c.cachedObjectsByKey ++ [(k.canonicalString, v)]⟩ :=
        (Except.ok.inj hset).symm
      rw [hc1, hcanon]
      show mapGet (c.cachedObjectsByKey ++ [(k.canonicalString, v)]) k.canonicalString = some v
      rw [mapGet_append]
      rw [Option.not_isSome_iff_eq_none] at hdup
      rw [hdup]
      simp
  have hkept : mapGet (c1.applySets ops).cachedObjectsByKey k2.canonicalString = some v :=
    applySets_keeps _ _ ops c1 hc1mem
  refine ⟨?_, hkept, ?_⟩
  · simp [FirebaseObjectCache.set, hkept]
  · exact applySets_absent _ ops2 (FirebaseObjectCache.empty T) rfl hnever

/-- C2 witness: the canonical strings of the keys (prod, a%b, c) and
(prod, a, b%c) coincide, so the second insertion fails and the first entry
is still served; a third canonical string never inserted misses. -/
theorem c2_cache_semantics_witness :
    ((((FirebaseObjectCache.empty Nat).applySets
        [(⟨"prod", "a%b", "c", none⟩, 1), (⟨"qa", "x", "y", none⟩, 5)]).set
          ⟨"prod", "a", "b%c", none⟩ 2 =
        .error (.duplicateCacheEntry "prod%a%b%c")) ∧
      (((FirebaseObjectCache.empty Nat).applySets
        [(⟨"prod", "a%b", "c", none⟩, 1), (⟨"qa", "x", "y", none⟩, 5)]).get
          ⟨"prod", "a", "b%c", none⟩ = some 1)) ∧
    (((FirebaseObjectCache.empty Nat).applySets
        [(⟨"prod", "z", "w", none⟩, 9)]).get ⟨"prod", "a", "b%c", none⟩ = none) := by
  have h := c2_cache_semantics (FirebaseObjectCache.empty Nat)
    ⟨[("prod%a%b%c", 1)]⟩ ⟨"prod", "a%b", "c", none⟩ 1
    [(⟨"qa", "x", "y", none⟩, 5)] [(⟨"prod", "z", "w", none⟩, 9)]
    ⟨"prod", "a", "b%c", none⟩ 2 (by decide) (by decide) (by decide)
  exact ⟨⟨h.1, h.2.1⟩, h.2.2⟩

/-! ## Lemmas about Settings.saveAll -/

/-- The setting state produced by save() does not depend on the storage
argument (only the returned storage does). -/
theorem save_fst {ty : SettingTy} (sv : SettingValue ty) (storage : SettingsStorage) :
    (sv.save storage).1 =
      (match sv.setValueField with
       | .null => sv
       | .resetToken => { sv with setValueField := .null, loadedValueField := none }
       | .val v => { sv with setValueField := .null, loadedValueField := some v }) := by
  cases hs : sv.setValueField <;> simp [SettingValue.save, hs]

theorem applyDebug_settings (w : World) :
    (w.applyDebugLogEnabled).settings = w.settings := by
  unfold World.applyDebugLogEnabled
  split <;> rfl

theorem applyDebug_applied (w : World) :
    (w.applyDebugLogEnabled).debugLogEnabledSettingApplied = true := by
  unfold World.applyDebugLogEnabled
  split <;> rfl

theorem applyDebug_logLevel (w : World) :
    (w.applyDebugLogEnabled).logLevel =
      (if w.settings.debugLogEnabled.isDefault then w.logLevel
       else some (if w.settings.debugLogEnabled.value then "debug" else "info")) := by
  unfold World.applyDebugLogEnabled
  split <;> simp_all

theorem saveAndApply_debug_host (w : World) :
    (w.saveAndApply .debugLogEnabled).settings.host = w.settings.host := by
  show (World.applyDebugLogEnabled _).settings.host = _
  rw [applyDebug_settings]

theorem saveAndApply_debug_projectId (w : World) :
    (w.saveAndApply .debugLogEnabled).settings.projectId = w.settings.projectId := by
  show (World.applyDebugLogEnabled _).settings.projectId = _
  rw [applyDebug_settings]

theorem saveAndApply_debug_apiKey (w : World) :
    (w.saveAndApply .debugLogEnabled).settings.apiKey = w.settings.apiKey := by
  show (World.applyDebugLogEnabled _).settings.apiKey = _
  rw [applyDebug_settings]

theorem saveAndApply_debug_debug (w : World) :
    (w.saveAndApply .debugLogEnabled).settings.debugLogEnabled =
      (w.settings.debugLogEnabled.save w.storage).1 := by
  show (World.applyDebugLogEnabled _).settings.debugLogEnabled = _
  rw [applyDebug_settings]

theorem saveAndApply_debug_applied (w : World) :
    (w.saveAndApply .debugLogEnabled).debugLogEnabledSettingApplied = true :=
  applyDebug_applied _

theorem saveAndApply_debug_logLevel (w : World) :
    (w.saveAndApply .debugLogEnabled).logLevel =
      (match w.settings.debugLogEnabled.setValueField with
       | .val v => some (if v then "debug" else "info")
       | .resetToken => w.logLevel
       | .null =>
         if w.settings.debugLogEnabled.isDefault then w.logLevel
         else some (if w.settings.debugLogEnabled.value then "debug" else "info")) := by
  show (World.applyDebugLogEnabled _).logLevel = _
  rw [applyDebug_logLevel]
  cases hs : w.settings.debugLogEnabled.setValueField <;>
    simp [save_fst, hs, SettingValue.isDefault, SettingValue.value]

theorem saveAndApply_host_debug (w : World) :
    (w.saveAndApply .host).settings.debugLogEnabled = w.settings.debugLogEnabled := rfl

theorem saveAndApply_host_host (w : World) :
    (w.saveAndApply .host).settings.host = (w.settings.host.save w.storage).1 := rfl

theorem saveAndApply_host_projectId (w : World) :
    (w.saveAndApply .host).settings.projectId = w.settings.projectId := rfl

theorem saveAndApply_host_apiKey (w : World) :
    (w.saveAndApply .host).settings.apiKey = w.settings.apiKey := rfl

theorem saveAndApply_host_applied (w : World) :
    (w.saveAndApply .host).debugLogEnabledSettingApplied =
      w.debugLogEnabledSettingApplied := rfl

theorem saveAndApply_host_logLevel (w : World) :
    (w.saveAndApply .host).logLevel = w.logLevel := rfl

theorem saveAndApply_projectId_debug (w : World) :
    (w.saveAndApply .projectId).settings.debugLogEnabled = w.settings.debugLogEnabled := rfl

theorem saveAndApply_projectId_host (w : World) :
    (w.saveAndApply .projectId).settings.host = w.settings.host := rfl

theorem saveAndApply_projectId_projectId (w : World) :
    (w.saveAndApply .projectId).settings.projectId =
      (w.settings.projectId.save w.storage).1 := rfl

theorem saveAndApply_projectId_apiKey (w : World) :
    (w.saveAndApply .projectId).settings.apiKey = w.settings.apiKey := rfl

theorem saveAndApply_projectId_applied (w : World) :
    (w.saveAndApply .projectId).debugLogEnabledSettingApplied =
      w.debugLogEnabledSettingApplied := rfl

theorem saveAndApply_projectId_logLevel (w : World) :
    (w.saveAndApply .projectId).logLevel = w.logLevel := rfl

theorem saveAndApply_apiKey_debug (w : World) :
    (w.saveAndApply .apiKey).settings.debugLogEnabled = w.settings.debugLogEnabled := rfl

theorem saveAndApply_apiKey_host (w : World) :
    (w.saveAndApply .apiKey).settings.host = w.settings.host := rfl

theorem saveAndApply_apiKey_projectId (w : World) :
    (w.saveAndApply .apiKey).settings.projectId = w.settings.projectId := rfl

theorem saveAndApply_apiKey_apiKey (w : World) :
    (w.saveAndApply .apiKey).settings.apiKey =
      (w.settings.apiKey.save w.storage).1 := rfl

theorem saveAndApply_apiKey_applied (w : World) :
    (w.saveAndApply .apiKey).debugLogEnabledSettingApplied =
      w.debugLogEnabledSettingApplied := rfl

theorem saveAndApply_apiKey_logLevel (w : World) :
    (w.saveAndApply .apiKey).logLevel = w.logLevel := rfl

/-- C8: saveAll() visits exactly the four settings (debug-logging, host,
project-id, api-key) in that fixed order and returns exactly the dirty
ones in that order; each dirty setting is saved (its new state is the
save() result) and the optional apply() hook runs after the save (the
global applied flag is set whenever the debug-logging setting was dirty,
and the log level is updated from the freshly saved value, staying
unchanged for a staged reset); settings that were not dirty are neither
saved, nor applied, nor included in the returned list. -/
theorem c8_saveAll_spec (w : World) :
    ((w.saveAll).2 = Settings.allIds.filter (fun i => w.isDirtyAt i)) ∧
    ((w.saveAll).1.settings.debugLogEnabled =
      (if w.settings.debugLogEnabled.isDirty
       then (w.settings.debugLogEnabled.save w.storage).1
       else w.settings.debugLogEnabled)) ∧
    ((w.saveAll).1.settings.host =
      (if w.settings.host.isDirty
       then (w.settings.host.save w.storage).1
       else w.settings.host)) ∧
    ((w.saveAll).1.settings.projectId =
      (if w.settings.projectId.isDirty
       then (w.settings.projectId.save w.storage).1
       else w.settings.projectId)) ∧
    ((w.saveAll).1.settings.apiKey =
      (if w.settings.apiKey.isDirty
       then (w.settings.apiKey.save w.storage).1
       else w.settings.apiKey)) ∧
    ((w.saveAll).1.debugLogEnabledSettingApplied =
      (if w.settings.debugLogEnabled.isDirty
       then true
       else w.debugLogEnabledSettingApplied)) ∧
    ((w.saveAll).1.logLevel =
      (match w.settings.debugLogEnabled.setValueField with
       | .val v => some (if v then "debug" else "info")
       | .resetToken => w.logLevel
       | .null => w.logLevel)) := by
  cases hslot : w.settings.debugLogEnabled.setValueField with
  | null =>
    have h1 : w.settings.debugLogEnabled.isDirty = false := by
      simp [SettingValue.isDirty, hslot]
    by_cases h2 : w.settings.host.isDirty = true <;>
      by_cases h3 : w.settings.projectId.isDirty = true <;>
      by_cases h4 : w.settings.apiKey.isDirty = true <;>
      simp [World.saveAll, Settings.allIds, World.isDirtyAt, List.filter,
        hslot, h1, h2, h3, h4,
        saveAndApply_debug_host, saveAndApply_debug_projectId, saveAndApply_debug_apiKey,
        saveAndApply_debug_debug, saveAndApply_debug_applied, saveAndApply_debug_logLevel,
        saveAndApply_host_debug, saveAndApply_host_host, saveAndApply_host_projectId,
        saveAndApply_host_apiKey, saveAndApply_host_applied, saveAndApply_host_logLevel,
        saveAndApply_projectId_debug, saveAndApply_projectId_host,
        saveAndApply_projectId_projectId, saveAndApply_projectId_apiKey,
        saveAndApply_projectId_applied, saveAndApply_projectId_logLevel,
        saveAndApply_apiKey_debug, saveAndApply_apiKey_host, saveAndApply_apiKey_projectId,
        saveAndApply_apiKey_apiKey, saveAndApply_apiKey_applied, saveAndApply_apiKey_logLevel,
        save_fst]
  | resetToken =>
    have h1 : w.settings.debugLogEnabled.isDirty = true := by
      simp [SettingValue.isDirty, hslot]
    by_cases h2 : w.settings.host.isDirty = true <;>
      by_cases h3 : w.settings.projectId.isDirty = true <;>
      by_cases h4 : w.settings.apiKey.isDirty = true <;>
      simp [World.saveAll, Settings.allIds, World.isDirtyAt, List.filter,
        hslot, h1, h2, h3, h4,
        saveAndApply_debug_host, saveAndApply_debug_projectId, saveAndApply_debug_apiKey,
        saveAndApply_debug_debug, saveAndApply_debug_applied, saveAndApply_debug_logLevel,
        saveAndApply_host_debug, saveAndApply_host_host, saveAndApply_host_projectId,
        saveAndApply_host_apiKey, saveAndApply_host_applied, saveAndApply_host_logLevel,
        saveAndApply_projectId_debug, saveAndApply_projectId_host,
        saveAndApply_projectId_projectId, saveAndApply_projectId_apiKey,
        saveAndApply_projectId_applied, saveAndApply_projectId_logLevel,
        saveAndApply_apiKey_debug, saveAndApply_apiKey_host, saveAndApply_apiKey_projectId,
        saveAndApply_apiKey_apiKey, saveAndApply_apiKey_applied, saveAndApply_apiKey_logLevel,
        save_fst]
  | val v =>
    have h1 : w.settings.debugLogEnabled.isDirty = true := by
      simp [SettingValue.isDirty, hslot]
    by_cases h2 : w.settings.host.isDirty = true <;>
      by_cases h3 : w.settings.projectId.isDirty = true <;>
      by_cases h4 : w.settings.apiKey.isDirty = true <;>
      simp [World.saveAll, Settings.allIds, World.isDirtyAt, List.filter,
        hslot, h1, h2, h3, h4,
        saveAndApply_debug_host, saveAndApply_debug_projectId, saveAndApply_debug_apiKey,
        saveAndApply_debug_debug, saveAndApply_debug_applied, saveAndApply_debug_logLevel,
        saveAndApply_host_debug, saveAndApply_host_host, saveAndApply_host_projectId,
        saveAndApply_host_apiKey, saveAndApply_host_applied, saveAndApply_host_logLevel,
        saveAndApply_projectId_debug, saveAndApply_projectId_host,
        saveAndApply_projectId_projectId, saveAndApply_projectId_apiKey,
        saveAndApply_projectId_applied, saveAndApply_projectId_logLevel,
        saveAndApply_apiKey_debug, saveAndApply_apiKey_host, saveAndApply_apiKey_projectId,
        saveAndApply_apiKey_apiKey, saveAndApply_apiKey_applied, saveAndApply_apiKey_logLevel,
        save_fst]

/-! ## Lemmas about client construction -/

@[simp] theorem except_bind_ok {ε α β : Type} (a : α) (f : α → Except ε β) :
    (Except.ok (ε := ε) a >>= f) = f a := rfl

@[simp] theorem except_bind_error {ε α β : Type} (e : ε) (f : α → Except ε β) :
    ((Except.error e : Except ε α) >>= f) = Except.error e := rfl

@[simp] theorem empty_cache_get {T : Type} (key : FirebaseObjectCacheKey) :
    (FirebaseObjectCache.empty T).get key = none := rfl

@[simp] theorem hostNameFromHost_prod :
    hostNameFromHost "prod" = .ok "firestore.googleapis.com" := rfl

@[simp] theorem hostNameFromHost_emulator :
    hostNameFromHost "emulator" = .ok "127.0.0.1" := rfl

@[simp] theorem hostNameFromHost_nightly :
    hostNameFromHost "nightly" = .ok "test-firestore.sandbox.googleapis.com" := rfl

@[simp] theorem hostNameFromHost_qa :
    hostNameFromHost "qa" = .ok "staging-firestore.sandbox.googleapis.com" := rfl

theorem isKnownHost_cases (host : String) (hk : isKnownHost host = true) :
    host = "prod" ∨ host = "emulator" ∨ host = "nightly" ∨ host = "qa" := by
  simp [isKnownHost] at hk
  tauto

theorem hostNameFromHost_ok (host : String) (hk : isKnownHost host = true) :
    ∃ hn, hostNameFromHost host = .ok hn := by
  rcases isKnownHost_cases host hk with h | h | h | h <;> rw [h] <;> exact ⟨_, rfl⟩

theorem appName_isOk (hs : HelperState) (hf : List Nat → List Nat) (bf : String → String)
    (hh : hs.hasher = some hf) (hb : hs.base64Encode = some bf)
    (key : FirebaseObjectCacheKey) : ∃ s, key.appName hs = .ok s := by
  unfold FirebaseObjectCacheKey.appName
  rw [hh, hb]
  exact ⟨_, rfl⟩

/-- On empty caches, when the validation passes, the host is known and
both primitives are installed, the browser-path construction succeeds. -/
theorem getOrCreateFirestore_ok_on_empty (hs : HelperState)
    (hf : List Nat → List Nat) (bf : String → String)
    (hh : hs.hasher = some hf) (hb : hs.base64Encode = some bf)
    (settings : Settings) (applied : Bool) (logLevel : Option String)
    (instanceId : Option Nat)
    (hcond : ¬(settings.host.value ≠ "emulator" ∧
      isPlaceholderValue settings.projectId.value = true))
    (hk : isKnownHost settings.host.value = true) :
    ∃ r, getOrCreateFirestore hs
      (FirebaseObjectCache.empty FirebaseAppCacheEntry)
      (FirebaseObjectCache.empty FirestoreCacheEntry)
      settings applied logLevel instanceId = .ok r := by
  obtain ⟨hn, hhn⟩ := hostNameFromHost_ok _ hk
  obtain ⟨s1, hs1⟩ := appName_isOk hs hf bf hh hb
    ⟨settings.host.value, settings.projectId.value, settings.apiKey.value, instanceId⟩
  simp only [getOrCreateFirestore, hhn, except_bind_ok, empty_cache_get, if_neg hcond,
    FirebaseObjectCache.set, FirebaseObjectCache.empty, mapGet, Option.isSome_none,
    Bool.false_eq_true, if_false, hs1, FirestoreCacheEntry.toFirestoreInfo]
  exact ⟨_, rfl⟩

/-- C3 (amended): with the hash and base64 primitives installed, (a) if
the selected backend host is known and not emulator and the project ID is
a placeholder, both construction paths raise the placeholder-project-ID
configuration error before any remote operation; (b) when the project ID
is not a placeholder, construction raises no error regardless of whether
the API key is a placeholder (the Node path merely omits a placeholder API
key from the Firebase options); (c) if the backend host is emulator,
placeholder values raise no error. -/
theorem c3_placeholder_validation (hs : HelperState)
    (hf : List Nat → List Nat) (bf : String → String)
    (hh : hs.hasher = some hf) (hb : hs.base64Encode = some bf)
    (settings : Settings) (applied : Bool) (logLevel : Option String)
    (instanceId : Option Nat)
    (appCache : FirebaseObjectCache FirebaseAppCacheEntry)
    (dbCache : FirebaseObjectCache FirestoreCacheEntry)
    (args : ParsedArgs) :
    (isKnownHost settings.host.value = true → settings.host.value ≠ "emulator" →
      isPlaceholderValue settings.projectId.value = true →
      getOrCreateFirestore hs appCache dbCache settings applied logLevel instanceId =
        .error (.placeholderProjectIdNotAllowed
          "The Project ID needs to be set in firebase_config.ts, or in the Settings, unless using the Firestore emulator.")) ∧
    (isKnownHost settings.host.value = true →
      isPlaceholderValue settings.projectId.value = false →
      ∃ r, getOrCreateFirestore hs
        (FirebaseObjectCache.empty FirebaseAppCacheEntry)
        (FirebaseObjectCache.empty FirestoreCacheEntry)
        settings applied logLevel instanceId = .ok r) ∧
    (settings.host.value = "emulator" →
      ∃ r, getOrCreateFirestore hs
        (FirebaseObjectCache.empty FirebaseAppCacheEntry)
        (FirebaseObjectCache.empty FirestoreCacheEntry)
        settings applied logLevel instanceId = .ok r) ∧
    (isKnownHost args.host = true → args.host ≠ "emulator" →
      isPlaceholderValue args.projectId = true →
      setupFirestore args =
        .error (.placeholderProjectIdNotAllowed
          "The Project ID needs to be set in firebase_config.ts or specified on the command-line unless using the Firestore emulator.")) ∧
    (isKnownHost args.host = true → isPlaceholderValue args.projectId = false →
      ∃ r, setupFirestore args = .ok r ∧
        r.firebaseConfig.apiKey =
          (if isPlaceholderValue args.apiKey then none else some args.apiKey)) ∧
    (args.host = "emulator" → ∃ r, setupFirestore args = .ok r) := by
  refine ⟨?_, ?_, ?_, ?_, ?_, ?_⟩
  · intro hk hne hp
    obtain ⟨hn, hhn⟩ := hostNameFromHost_ok _ hk
    simp only [getOrCreateFirestore, hhn, except_bind_ok, if_pos (And.intro hne hp)]
  · intro hk hp
    exact getOrCreateFirestore_ok_on_empty hs hf bf hh hb settings applied logLevel
      instanceId (fun hc => by simp [hp] at hc) hk
  · intro hemu
    refine getOrCreateFirestore_ok_on_empty hs hf bf hh hb settings applied logLevel
      instanceId (fun hc => absurd hemu hc.1) ?_
    rw [hemu]
    rfl
  · intro hk hne hp
    obtain ⟨hn, hhn⟩ := hostNameFromHost_ok _ hk
    simp only [setupFirestore, hhn, except_bind_ok, if_pos (And.intro hne hp)]
  · intro hk hp
    obtain ⟨hn, hhn⟩ := hostNameFromHost_ok _ hk
    have hcond : ¬(args.host ≠ "emulator" ∧ isPlaceholderValue args.projectId = true) := by
      simp [hp]
    have hok : setupFirestore args =
        .ok { firebaseConfig :=
                { projectId := args.projectId
                  apiKey := if (!isPlaceholderValue args.apiKey) = true
                    then some args.apiKey else none }
              logLevelSetToDebug := args.debugLoggingEnabled
              dbInitMode := if args.host = "prod" ∨ args.host = "emulator"
                then DbInitMode.viaGetFirestore else DbInitMode.viaInitializeFirestore hn
              emulatorConnected := decide (args.host = "emulator") } := by
      simp only [setupFirestore, hhn, except_bind_ok, if_neg hcond]
    refine ⟨_, hok, ?_⟩
    show (if (!isPlaceholderValue args.apiKey) = true then some args.apiKey else none) =
      (if isPlaceholderValue args.apiKey then none else some args.apiKey)
    cases hak : isPlaceholderValue args.apiKey <;> simp
  · intro hemu
    have hcond : ¬(args.host ≠ "emulator" ∧ isPlaceholderValue args.projectId = true) :=
      fun hc => absurd hemu hc.1
    simp only [setupFirestore, hemu, hostNameFromHost_emulator, except_bind_ok, if_neg hcond]
    exact ⟨_, rfl⟩

/-- C3 witness: with the installed primitives, default settings (host
prod, placeholder project ID) make the browser path fail with the
placeholder error, and a Node run with a real project ID and a placeholder
API key succeeds with the API key omitted from the Firebase options. -/
theorem c3_placeholder_validation_witness :
    (getOrCreateFirestore installedHelperState
      (FirebaseObjectCache.empty FirebaseAppCacheEntry)
      (FirebaseObjectCache.empty FirestoreCacheEntry)
      Settings.new false none none =
      .error (.placeholderProjectIdNotAllowed
        "The Project ID needs to be set in firebase_config.ts, or in the Settings, unless using the Firestore emulator.")) ∧
    (∃ r, setupFirestore ⟨false, "prod", "my-project", "REPLACE_WITH_YOUR_API_KEY"⟩ = .ok r ∧
      r.firebaseConfig.apiKey =
        (if isPlaceholderValue "REPLACE_WITH_YOUR_API_KEY" then none
         else some "REPLACE_WITH_YOUR_API_KEY")) := by
  have h := c3_placeholder_validation installedHelperState md5Digest base64EncodeOfString
    rfl rfl Settings.new false none none
    (FirebaseObjectCache.empty FirebaseAppCacheEntry)
    (FirebaseObjectCache.empty FirestoreCacheEntry)
    ⟨false, "prod", "my-project", "REPLACE_WITH_YOUR_API_KEY"⟩
  exact ⟨h.1 (by decide) (by decide) (by decide), h.2.2.2.2.1 (by decide) (by decide)⟩

/-- C3 counterexample: the claim that a placeholder API key raises a
configuration error on a non-emulator backend is false: the Node path
returns successfully (merely omitting the API key), and the browser path
likewise succeeds with the placeholder API key passed through. -/
theorem c3_counterexample :
    (setupFirestore ⟨false, "prod", "my-project", "REPLACE_WITH_YOUR_API_KEY"⟩ =
      .ok { firebaseConfig := { projectId := "my-project", apiKey := none },
            logLevelSetToDebug := false,
            dbInitMode := .viaGetFirestore,
            emulatorConnected := false }) ∧
    ((getOrCreateFirestore installedHelperState
      (FirebaseObjectCache.empty FirebaseAppCacheEntry)
      (FirebaseObjectCache.empty FirestoreCacheEntry)
      { Settings.new with
        projectId := (SettingValue.new .str "projectId" PROJECT_ID).setValue "my-project" }
      false none none).toOption.isSome = true) := by
  constructor
  · rfl
  · set_option maxRecDepth 200000 in decide

set_option maxRecDepth 1000000 in
/-- C6 (amended): the derived stable name is deterministic: with the same
installed hasher and base64-encode primitives, two keys with identical
(host, project-id, api-key, instance-id) components always yield the
identical derived name (the instance ID is appended to the name as a
suffix, so it too must agree); and for the sampled input tuples, with the
installed MD5 and base64 primitives, changing any single one of the host,
project-id, or api-key components changes the derived name. -/
theorem c6_appName_deterministic (hs : HelperState) (k1 k2 : FirebaseObjectCacheKey)
    (hhost : k1.host = k2.host) (hpid : k1.projectId = k2.projectId)
    (hak : k1.apiKey = k2.apiKey) (hiid : k1.instanceId = k2.instanceId) :
    (k1.appName hs = k2.appName hs) ∧
    ((⟨"prod", "my-project", "my-api-key", none⟩ : FirebaseObjectCacheKey).appName
        installedHelperState ≠
      (⟨"qa", "my-project", "my-api-key", none⟩ : FirebaseObjectCacheKey).appName
        installedHelperState) ∧
    ((⟨"prod", "my-project", "my-api-key", none⟩ : FirebaseObjectCacheKey).appName
        installedHelperState ≠
      (⟨"prod", "other-project", "my-api-key", none⟩ : FirebaseObjectCacheKey).appName
        installedHelperState) ∧
    ((⟨"prod", "my-project", "my-api-key", none⟩ : FirebaseObjectCacheKey).appName
        installedHelperState ≠
      (⟨"prod", "my-project", "other-api-key", none⟩ : FirebaseObjectCacheKey).appName
        installedHelperState) := by
  refine ⟨?_, by decide, by decide, by decide⟩
  cases k1
  cases k2
  cases hhost
  cases hpid
  cases hak
  cases hiid
  rfl

/-- C6 witness: the determinism component applied at a concrete key. -/
theorem c6_appName_deterministic_witness :
    (⟨"prod", "my-project", "my-api-key", some 3⟩ : FirebaseObjectCacheKey).appName
        installedHelperState =
      (⟨"prod", "my-project", "my-api-key", some 3⟩ : FirebaseObjectCacheKey).appName
        installedHelperState :=
  (c6_appName_deterministic installedHelperState
    ⟨"prod", "my-project", "my-api-key", some 3⟩
    ⟨"prod", "my-project", "my-api-key", some 3⟩ rfl rfl rfl rfl).1

set_option maxRecDepth 1000000 in
/-- C6 counterexample: two keys with identical (host, project-id, api-key)
components but different instance IDs produce different derived names with
the installed primitives, because the instance ID is appended to the name
as a dash-separated suffix. -/
theorem c6_counterexample :
    (⟨"prod", "my-project", "my-api-key", none⟩ : FirebaseObjectCacheKey).appName
        installedHelperState ≠
      (⟨"prod", "my-project", "my-api-key", some 1⟩ : FirebaseObjectCacheKey).appName
        installedHelperState := by
  decide

/-- C7: cancel() is idempotent (a second cancel produces the same state),
the paired token polled after cancel() always reports cancelled, and
throwIfCancelled() on a token whose source has not been cancelled returns
normally (and, the operations being pure functions of the state, changes
no state). -/
theorem c7_cancellation (s : CancellationState) :
    (s.cancel.cancel = s.cancel) ∧
    (s.cancel.isCancelled = true) ∧
    (s.isCancelled = false → s.throwIfCancelled = .ok ()) := by
  refine ⟨rfl, rfl, ?_⟩
  intro h
  have hc : s.cancelled = false := h
  simp [CancellationState.throwIfCancelled, hc]

/-- C7 witness: a fresh source, cancelled twice, and polled before any
cancellation. -/
theorem c7_cancellation_witness :
    (CancellationState.new.cancel.cancel = CancellationState.new.cancel) ∧
    (CancellationState.new.throwIfCancelled = .ok ()) :=
  ⟨(c7_cancellation CancellationState.new).1,
   (c7_cancellation CancellationState.new).2.2 rfl⟩

end FirestoreTeam
